import Mathlib

/-!
Verification of the multi-model automaton interpreter (turing_point).

The definitions below are a shallow embedding of the Go sources:

* `src/main.go` — the final, unified interpreter: `State`, `Runtime`,
  `State.Step` (modelled as `Step` below, taking the state arena explicitly
  because Go follows `*State` pointers while the model stores target ids),
  `run`, `parseRules`, `buildGraph`, `validateNoWriteOnHash`.
* `src/core.go` + `src/trans.go` + `src/pda.go` + `src/unnamed/part_000`,
  `part_001` — the per-variant snapshot machines sharing the same `State`
  shape; the loop bodies modelled here are `twaRunStep` (core.go
  `TWAMachine.Run`) and `tmStep` (part_000 `TMMachine.Run`).

Representation choices, kept uniform:
* Go `byte` values are `Nat` (so `'#'` is `35`, `'_'` is `95`, `'a'` is `97`,
  `'x'` is `120`, and the zero byte used by Go as the "unset" sentinel for
  `writeSym` / `stackSym` / `printSym` is `0`).
* Go `Move` is `int8` with `L = -1`, `R = +1`; it is modelled as `Int` so that
  the zero value of `rawLine.dir` behaves exactly as in Go (`dir == L` is
  `dir = -1`; anything else moves right).
* The head index is `Int` (Go lets it go negative before the bounds check).
* A Go `map[uint8]*State` is an association list with distinct keys; map
  insertion replaces the binding in place (`insertSym`), lookup is
  `lookupSym`.  Pointers are replaced by state ids resolved through the
  arena (`getState`); `buildGraph` only installs ids of states it created,
  mirroring Go where a stored `*State` is never nil.
* Stacks keep Go's slice order: push appends at the end, the top is the last
  element (`getLast?` / `dropLast`).
* Trace printing (`displayTapeWithHead`, `fmt.Printf`) and sleeping are
  side-effect-free in the model: they never influence control flow in Go.
-/

namespace TuringPoint

/-- Go `Move` (`int8`): `L = -1`, `R = +1`; the zero value `0` is possible in
a `rawLine` that never had a direction applied, and behaves like `R` wherever
Go tests `dir == L`. -/
abbrev Move := Int

/-- main.go line 18: `L Move = -1`. -/
def L : Move := -1

/-- main.go line 19: `R Move = +1`. -/
def R : Move := 1

/-- main.go lines 29-35: `StepStatus`. -/
inductive StepStatus where
  | Continue
  | Accept
  | Reject
deriving DecidableEq, Repr

/-- main.go lines 39-47: `MachineKind` (`KindTwoWayPDA` is the 2-stack PDA;
core.go names the same constant `KindTwoPDA`). -/
inductive MachineKind where
  | KindTWA
  | KindTM
  | KindPDA
  | KindTwoWayPDA
  | KindTransducer
deriving DecidableEq, Repr

/-- main.go lines 49-62: `Action`. -/
inductive Action where
  | ActNone
  | ActScan
  | ActWriteTape
  | ActPush1
  | ActPop1
  | ActPush2
  | ActPop2
  | ActPrint
deriving DecidableEq, Repr

/-- main.go lines 66-77: `State`.  `next` maps a symbol byte to the target
state's id (Go stores a `*State`); `writeSym`, `stackSym`, `printSym` are
bytes with `0` meaning "unset" exactly as in Go. -/
structure State where
  id : Nat
  dir : Move
  next : List (Nat × Nat)
  accept : Bool
  reject : Bool
  action : Action
  writeSym : Nat
  stackSym : Nat
  printSym : Nat
deriving DecidableEq, Repr

/-- main.go lines 81-89: `rawLine`, the parser's intermediate record.  `id`
and pair targets are `Int` because Go's `strconv.Atoi` accepts signed
numbers; `pairs` stores `(symbol byte, target id)` — Go keeps the strings and
re-runs `Atoi` in `buildGraph`, on input the parser already validated. -/
structure RawLine where
  id : Int
  dir : Move
  action : Action
  pairs : List (Nat × Int)
  acc : Bool
  rej : Bool
  outSym : Nat
deriving DecidableEq, Repr

/-- main.go lines 93-100: `Runtime`. -/
structure Runtime where
  tape : List Nat
  head : Int
  stack : List Nat
  stack2 : List Nat
  output : List Nat
  kind : MachineKind
deriving DecidableEq, Repr

/-- The state arena `[]*State` (index = state id, `none` = nil pointer). -/
abbrev Graph := List (Option State)

/-- `st[i]` on the arena: out-of-range or nil both read as `none`. -/
def getState (g : Graph) (i : Nat) : Option State :=
  g.getD i none

/-- Go map lookup `s.next[sym]`. -/
def lookupSym : List (Nat × Nat) → Nat → Option Nat
  | [], _ => none
  | p :: rest, k => if p.1 = k then some p.2 else lookupSym rest k

/-- Go map store `s.next[key] = v`: replace the binding if present, else
append.  Keys stay distinct, as in a Go map. -/
def insertSym : List (Nat × Nat) → Nat → Nat → List (Nat × Nat)
  | [], k, v => [(k, v)]
  | p :: rest, k, v => if p.1 = k then (k, v) :: rest else p :: insertSym rest k v

/-- The boundary marker byte `'#'`. -/
def hashB : Nat := 35

/-- The print-edge placeholder byte `'_'`. -/
def underscoreB : Nat := 95

/-! ## Byte-string helpers (Go `strings` / `strconv` on ASCII input)

Lines of a rule file are `List Char`.  `Char.isWhitespace` covers the blank,
tab, CR and LF — the whitespace that actually occurs in rule files (Go's
`unicode.IsSpace` additionally accepts `\v`, `\f` and Unicode spaces). -/

/-- `strings.TrimSpace`. -/
def trimStr (l : List Char) : List Char :=
  ((l.dropWhile Char.isWhitespace).reverse.dropWhile Char.isWhitespace).reverse

/-- `strings.HasPrefix`. -/
def isPre : List Char → List Char → Bool
  | [], _ => true
  | _ :: _, [] => false
  | a :: as, b :: bs => a = b && isPre as bs

/-- `strings.Contains`. -/
def containsStr : List Char → List Char → Bool
  | hay, pat =>
    if isPre pat hay then true
    else
      match hay with
      | [] => false
      | _ :: rest => containsStr rest pat

/-- ASCII `strings.ToLower` on one character. -/
def toLowerC (c : Char) : Char :=
  if 'A' ≤ c ∧ c ≤ 'Z' then Char.ofNat (c.toNat + 32) else c

/-- ASCII `strings.ToLower`. -/
def toLowerStr (l : List Char) : List Char :=
  l.map toLowerC

/-- `strings.Index` / `strings.IndexByte` for a one-character needle:
`none` models Go's `-1`. -/
def indexOfChar : List Char → Char → Option Nat
  | [], _ => none
  | a :: as, c => if a = c then some 0 else (indexOfChar as c).map (· + 1)

def isDigitC (c : Char) : Bool :=
  '0' ≤ c && c ≤ '9'

def digitsValAux : Nat → List Char → Option Nat
  | acc, [] => some acc
  | acc, c :: rest =>
    if isDigitC c then digitsValAux (acc * 10 + (c.toNat - 48)) rest else none

/-- The value of a non-empty all-digit string. -/
def digitsVal : List Char → Option Nat
  | [] => none
  | l => digitsValAux 0 l

/-- `strconv.Atoi`: optional sign, then one or more digits.  (Go additionally
fails on 64-bit overflow; the model's integers are unbounded.) -/
def atoiInt (s : List Char) : Option Int :=
  match s with
  | [] => none
  | c :: rest =>
    if c = '-' then (digitsVal rest).map (fun n => -(n : Int))
    else if c = '+' then (digitsVal rest).map (fun n => (n : Int))
    else (digitsVal s).map (fun n => (n : Int))

/-- `strings.Split` on a one-character separator. -/
def splitOnChar : List Char → Char → List (List Char)
  | [], _ => [[]]
  | a :: as, c =>
    if a = c then [] :: splitOnChar as c
    else
      match splitOnChar as c with
      | h :: t => (a :: h) :: t
      | [] => [[a]]

def fieldsAux : List Char → List Char → List (List Char)
  | cur, [] => if cur = [] then [] else [cur.reverse]
  | cur, c :: rest =>
    if c.isWhitespace then
      if cur = [] then fieldsAux [] rest else cur.reverse :: fieldsAux [] rest
    else fieldsAux (c :: cur) rest

/-- `strings.Fields`. -/
def fieldsStr (l : List Char) : List (List Char) :=
  fieldsAux [] l

/-- `strings.ReplaceAll(s, "-", " ")`. -/
def replaceDash (l : List Char) : List Char :=
  l.map (fun c => if c = '-' then ' ' else c)

/-! ## Keyword constants of the rule-file DSL -/

def tokSlashes : List Char := ['/', '/']

def tokHashSp : List Char := ['#', ' ']

def tokAccept : List Char := ['a', 'c', 'c', 'e', 'p', 't']

def tokReject : List Char := ['r', 'e', 'j', 'e', 'c', 't']

def tokPrint : List Char := ['p', 'r', 'i', 'n', 't']

def tokLeft : List Char := ['l', 'e', 'f', 't']

def tokLC : List Char := ['l']

def tokRight : List Char := ['r', 'i', 'g', 'h', 't']

def tokRC : List Char := ['r']

def tokScan : List Char := ['s', 'c', 'a', 'n']

def tokNone : List Char := ['n', 'o', 'n', 'e']

def tokWrite : List Char := ['w', 'r', 'i', 't', 'e']

def tokWrite1 : List Char := ['w', 'r', 'i', 't', 'e', '1']

def tokPush : List Char := ['p', 'u', 's', 'h']

def tokPush1 : List Char := ['p', 'u', 's', 'h', '1']

def tokWrite2 : List Char := ['w', 'r', 'i', 't', 'e', '2']

def tokPush2 : List Char := ['p', 'u', 's', 'h', '2']

def tokRead : List Char := ['r', 'e', 'a', 'd']

def tokRead1 : List Char := ['r', 'e', 'a', 'd', '1']

def tokPop : List Char := ['p', 'o', 'p']

def tokPop1 : List Char := ['p', 'o', 'p', '1']

def tokRead2 : List Char := ['r', 'e', 'a', 'd', '2']

def tokPop2 : List Char := ['p', 'o', 'p', '2']

/-! ## Rule parser (main.go lines 104-173 and 353-504)

main.go's `parseRules` reads a file; the model takes the file's lines.  The
per-line work of the scanner loop is `processLine`; `parseRules` folds it.
core.go's copy (lines 180-328) is the same logic; its `parseActionWord` has
one extra case, `"write-tape" → ActWriteTape`, which is unreachable: the only
caller `parseMode` first replaces every `-` by a blank and splits into
fields, so no token it passes ever contains a hyphen. -/

/-- main.go lines 104-113: `parseDirWord` (`some` = Go's `ok = true`). -/
def parseDirWord (w : List Char) : Option Move :=
  let s := toLowerStr (trimStr w)
  if s = tokLeft ∨ s = tokLC then some L
  else if s = tokRight ∨ s = tokRC then some R
  else none

/-- main.go lines 115-138: `parseActionWord` (`some` = Go's `ok = true`). -/
def parseActionWord (w : List Char) : Option Action :=
  let s := toLowerStr (trimStr w)
  if s = tokScan then some .ActScan
  else if s = tokNone then some .ActNone
  else if s = tokPrint then some .ActPrint
  else if s = tokWrite ∨ s = tokWrite1 ∨ s = tokPush ∨ s = tokPush1 then some .ActPush1
  else if s = tokWrite2 ∨ s = tokPush2 then some .ActPush2
  else if s = tokRead ∨ s = tokRead1 ∨ s = tokPop ∨ s = tokPop1 then some .ActPop1
  else if s = tokRead2 ∨ s = tokPop2 then some .ActPop2
  else none

inductive ModeOut where
  | mok (d : Move) (a : Action)
  | merr
  | mpanic
deriving DecidableEq, Repr

/-- main.go lines 144-173: `parseMode`.  `mpanic` is the Go panic on
`parts[0]` when `Fields` returns nothing (a mode string made only of
hyphens); with two or more fields Go reads `parts[0]` as the action and
`parts[1]` as the direction and ignores the rest. -/
def parseMode (s : List Char) : ModeOut :=
  let t := trimStr s
  if t = [] then .merr
  else
    match fieldsStr (toLowerStr (replaceDash t)) with
    | [] => .mpanic
    | [w] =>
      match parseDirWord w with
      | some d => .mok d .ActScan
      | none =>
        match parseActionWord w with
        | some a => .mok R a
        | none => .merr
    | w1 :: w2 :: _ =>
      match parseActionWord w1, parseDirWord w2 with
      | some a, some d => .mok d a
      | _, _ => .merr

inductive LineOut where
  | skip
  | lerr
  | lpanic
  | emit (ln : RawLine)
deriving DecidableEq, Repr

/-- main.go lines 467-490: the `(sym,to)` pair-scanning loop of a mode line.
`none` is a parse error; breaking out of the loop yields the pairs read so
far.  The fuel is the remaining text's length: every iteration drops at
least one character, and with the text exhausted the loop breaks anyway. -/
def pairsLoop : Nat → List Char → Option (List (Nat × Int))
  | 0, _ => some []
  | fuel + 1, right =>
    match indexOfChar right '(', indexOfChar right ')' with
    | some l, some r =>
      if r < l then some []
      else
        let inside := trimStr ((right.drop (l + 1)).take (r - l - 1))
        match splitOnChar inside ',' with
        | [symS, toS] =>
          match trimStr symS with
          | [c] =>
            match atoiInt (trimStr toS) with
            | some v => (pairsLoop fuel (right.drop (r + 1))).map (fun ps => (c.toNat, v) :: ps)
            | none => none
          | _ => none
        | _ => none
    | _, _ => some []

/-- main.go lines 407-451: a `print` line (after the id and `]` are split
off); `rest` still has its original case, the keyword test was on the
lowered copy. -/
def printLine (id : Int) (rest : List Char) : LineOut :=
  let after := trimStr (rest.drop 5)
  match indexOfChar after '(', indexOfChar after ')' with
  | some lp, some rp =>
    if rp < lp then .lerr
    else
      let inside := trimStr ((after.drop (lp + 1)).take (rp - lp - 1))
      match splitOnChar inside ',' with
      | [symS, nextS] =>
        match trimStr symS with
        | [c] =>
          if c = '#' then .lerr
          else
            match atoiInt (trimStr nextS) with
            | some v => .emit ⟨id, 0, .ActPrint, [(underscoreB, v)], false, false, c.toNat⟩
            | none => .lerr
        | _ => .lerr
      | _ => .lerr
  | _, _ => .lerr

/-- main.go lines 453-491: an ordinary mode line. -/
def modeLine (id : Int) (rest : List Char) : LineOut :=
  match indexOfChar rest '(' with
  | none => .lerr
  | some i =>
    match parseMode (trimStr (rest.take i)) with
    | .mpanic => .lpanic
    | .merr => .lerr
    | .mok dir act =>
      match pairsLoop (rest.drop i).length (rest.drop i) with
      | none => .lerr
      | some prs => .emit ⟨id, dir, act, prs, false, false, 0⟩

/-- One iteration of main.go's scanner loop (lines 366-494): trim, skip
blanks and comments, then classify the line.  The `accept` test fires on any
line whose first `]` is at a positive index and whose lowered text contains
`accept` anywhere; `reject` likewise when `accept` did not fire. -/
def processLine (l : List Char) : LineOut :=
  let line := trimStr l
  if line = [] ∨ isPre tokSlashes line = true ∨ isPre tokHashSp line = true then .skip
  else
    match indexOfChar line ']' with
    | some i =>
      if 0 < i ∧ containsStr (toLowerStr line) tokAccept = true then
        match atoiInt (trimStr (line.take i)) with
        | some id => .emit ⟨id, 0, .ActNone, [], true, false, 0⟩
        | none => .lerr
      else if 0 < i ∧ containsStr (toLowerStr line) tokReject = true then
        match atoiInt (trimStr (line.take i)) with
        | some id => .emit ⟨id, 0, .ActNone, [], false, true, 0⟩
        | none => .lerr
      else
        match atoiInt (trimStr (line.take i)) with
        | none => .lerr
        | some id =>
          let rest := trimStr (line.drop (i + 1))
          if isPre tokPrint (toLowerStr rest) = true then printLine id rest
          else modeLine id rest
    | none => .lerr

inductive ParseOut where
  | perr (n : Nat)
  | ppanic
  | pempty
  | pok (lines : List RawLine) (maxID : Int)
deriving DecidableEq, Repr

/-- Go's running `maxID` update for one record: the source id and every pair
target raise it (main.go lines 379-382, 443-449, 487-493). -/
def updateMax (m : Int) (ln : RawLine) : Int :=
  (ln.id :: ln.pairs.map (·.2)).foldl max m

def parseRulesGo : Nat → List RawLine → Int → List (List Char) → ParseOut
  | _, acc, maxID, [] => if maxID = 0 then .pempty else .pok acc.reverse maxID
  | n, acc, maxID, l :: ls =>
    match processLine l with
    | .skip => parseRulesGo (n + 1) acc maxID ls
    | .lerr => .perr n
    | .lpanic => .ppanic
    | .emit ln => parseRulesGo (n + 1) (ln :: acc) (updateMax maxID ln) ls

/-- main.go lines 353-504: `parseRules` over the file's lines.  `pempty` is
the final `"no states parsed"` error (`maxID == 0`), `perr n` a parse error
on line `n`. -/
def parseRules (ls : List (List Char)) : ParseOut :=
  parseRulesGo 1 [] 0 ls

/-! ## Graph builder (main.go lines 508-575; core.go `buildStates` lines
332-397 is the same function under another name) -/

/-- A fresh arena entry: main.go line 521, `&State{id, dir: R, action: ActScan}`. -/
def defaultState (i : Nat) : State :=
  ⟨i, R, [], false, false, .ActScan, 0, 0, 0⟩

/-- `st[i] = defaultState i` (no-op out of range, which `buildGraph` rules
out by its panic check). -/
def ensureState (g : Graph) (i : Nat) : Graph :=
  g.set i (some (defaultState i))

/-- Every id a record mentions, source first (Go's `used` set). -/
def lineIdList (ln : RawLine) : List Int :=
  ln.id :: ln.pairs.map (·.2)

def allIds (lines : List RawLine) : List Int :=
  (lines.map lineIdList).flatten

inductive BuildOut where
  | bpanic
  | bnostart (g : Graph)
  | bok (g : Graph) (start : State)
deriving DecidableEq, Repr

/-- main.go lines 533-538: apply the record's accept flag. -/
def lineAcc (ln : RawLine) (s : State) : State :=
  if ln.acc then { s with accept := true } else s

/-- main.go lines 536-538: apply the record's reject flag. -/
def lineRej (ln : RawLine) (s : State) : State :=
  if ln.rej then { s with reject := true } else s

/-- main.go lines 539-544: direction and action apply only when the record
carries pairs or a non-default action. -/
def lineDirAct (ln : RawLine) (s : State) : State :=
  if ln.pairs.length > 0 ∨ ln.action ≠ .ActNone then
    if ln.action ≠ .ActNone then { s with dir := ln.dir, action := ln.action }
    else { s with dir := ln.dir }
  else s

/-- main.go lines 546-548: a print record stores its output symbol. -/
def linePrintSym (ln : RawLine) (s : State) : State :=
  if ln.action = .ActPrint then { s with printSym := ln.outSym } else s

/-- main.go lines 550-555: a push record derives its stack symbol from the
first pair's symbol.  (Go also guards `len(symStr) > 0`, always true for
parser output; the model's pairs already store the symbol's first byte.) -/
def lineStackSym (ln : RawLine) (s : State) : State :=
  if (ln.action = .ActPush1 ∨ ln.action = .ActPush2) ∧ ln.pairs.length > 0 then
    { s with stackSym := ((ln.pairs.headD (0, 0)).1) }
  else s

/-- main.go lines 533-555 in order: flags, direction/action, print symbol,
stack symbol. -/
def lineState (ln : RawLine) (s0 : State) : State :=
  lineStackSym ln (linePrintSym ln (lineDirAct ln (lineRej ln (lineAcc ln s0))))

/-- main.go lines 557-567: register one `(symbol, target)` pair — create the
target if the arena has none (Go's dead `if st[toID] == nil` check; the
first pass already created every used id) and store the edge. -/
def pairStep (p : Graph × State) (pr : Nat × Int) : Graph × State :=
  (if getState p.1 pr.2.toNat = none then ensureState p.1 pr.2.toNat else p.1,
   { p.2 with next := insertSym p.2.next pr.1 pr.2.toNat })

/-- main.go lines 528-568: apply one record to the arena.  Go mutates the
state in place through its pointer; the model threads the updated state and
writes it back at the end (nothing reads the entry in between). -/
def applyLine (g : Graph) (ln : RawLine) : Graph :=
  match getState g ln.id.toNat with
  | none => g
  | some s0 =>
    ((ln.pairs.foldl pairStep (g, lineState ln s0)).1).set ln.id.toNat
      (some (ln.pairs.foldl pairStep (g, lineState ln s0)).2)

/-- The two passes of main.go lines 519-568 on a fresh arena of `maxID + 1`
nil slots: create a default state for every used id, then apply each record
in order. -/
def buildArena (lines : List RawLine) (maxID : Int) : Graph :=
  lines.foldl applyLine
    ((allIds lines).foldl (fun g i => ensureState g i.toNat)
      (List.replicate (maxID + 1).toNat none))

/-- main.go lines 508-575: `buildGraph`.  `bpanic` models the Go index panic
when a record mentions a negative id or one above `maxID` (impossible for
`parseRules` output, possible for an arbitrary record list); `bnostart` the
`"start state 1 not defined"` error, which in Go still returns the arena. -/
def buildGraph (lines : List RawLine) (maxID : Int) : BuildOut :=
  if (allIds lines).any (fun i => i < 0 ∨ maxID < i) then .bpanic
  else
    match getState (buildArena lines maxID) 1 with
    | some st => .bok (buildArena lines maxID) st
    | none => .bnostart (buildArena lines maxID)

/-! ## Validator (main.go lines 579-594) -/

/-- The scan of main.go lines 583-592: the first non-nil state whose action
is `ActPush1` or `ActPush2` and whose edge map has a `'#'` key; the result is
the state id the error message names. -/
def findOffender : Graph → Option Nat
  | [] => none
  | none :: rest => findOffender rest
  | some s :: rest =>
    if (s.action = .ActPush1 ∨ s.action = .ActPush2) ∧ (lookupSym s.next hashB).isSome = true
    then some s.id
    else findOffender rest

/-- main.go lines 579-594: `validateNoWriteOnHash`; `some i` is the
`"PDA/2PDA state i: Write on '#' is not allowed"` error, `none` success. -/
def validateNoWriteOnHash (g : Graph) (kind : MachineKind) : Option Nat :=
  if kind ≠ .KindPDA ∧ kind ≠ .KindTwoWayPDA then none
  else findOffender g

/-! ## The unified stepper (main.go lines 177-349) and run loop (714-750) -/

/-- The runtime errors main.go's `Step`, `nextOn` and `run` can produce, one
constructor per distinct `fmt.Errorf` site. -/
inductive ErrK where
  | headOutOfBounds
  | printMissingNext
  | printNoPrintSym
  | invalidSymbol
  | missingTransitionNil
  | stack1Underflow
  | stack1Mismatch
  | stack2Underflow
  | stack2Mismatch
  | headMovedOut
deriving DecidableEq, Repr

/-- What one Go `Step` call returns, `(nxt *State, status StepStatus, err
error)`, together with the runtime it mutated. -/
structure StepOut where
  rt : Runtime
  nxt : Option State
  status : StepStatus
  err : Option ErrK
deriving DecidableEq, Repr

/-- `rt.Tape[rt.Head]` once the bounds check passed. -/
def tapeRead (tape : List Nat) (h : Int) : Nat :=
  tape.getD h.toNat 0

/-- main.go lines 243-289: the action switch.  `.inr e` is an early
`return nxt, Reject, err`; the runtime is unchanged on those paths, exactly
as in Go where the mutation has not happened yet.  `ActPrint` has no case in
the Go switch (and is unreachable here, handled earlier). -/
def applyAction (s : State) (cur : Nat) (rt : Runtime) : Runtime ⊕ ErrK :=
  match s.action with
  | .ActNone => .inl rt
  | .ActScan => .inl rt
  | .ActPrint => .inl rt
  | .ActWriteTape => .inl { rt with tape := rt.tape.set rt.head.toNat s.writeSym }
  | .ActPush1 =>
    .inl (if s.stackSym = 0 ∨ cur = s.stackSym
          then { rt with stack := rt.stack ++ [s.stackSym] } else rt)
  | .ActPop1 =>
    if (rt.kind = .KindPDA ∨ rt.kind = .KindTwoWayPDA) ∧ cur = hashB then .inl rt
    else if rt.stack.length = 0 then .inr .stack1Underflow
    else if s.stackSym ≠ 0 ∧ rt.stack.getLastD 0 ≠ s.stackSym then .inr .stack1Mismatch
    else .inl { rt with stack := rt.stack.dropLast }
  | .ActPush2 =>
    .inl (if s.stackSym = 0 ∨ cur = s.stackSym
          then { rt with stack2 := rt.stack2 ++ [s.stackSym] } else rt)
  | .ActPop2 =>
    if (rt.kind = .KindPDA ∨ rt.kind = .KindTwoWayPDA) ∧ cur = hashB then .inl rt
    else if rt.stack2.length = 0 then .inr .stack2Underflow
    else if s.stackSym ≠ 0 ∧ rt.stack2.getLastD 0 ≠ s.stackSym then .inr .stack2Mismatch
    else .inl { rt with stack2 := rt.stack2.dropLast }

/-- main.go lines 292-318: the head-movement switch (the `default` arm is
unreachable, all five kinds are enumerated). -/
def moveHead (kind : MachineKind) (act : Action) (nxtDir : Move) (cur : Nat) (head : Int) : Int :=
  match kind with
  | .KindTWA => if nxtDir = L then head - 1 else head + 1
  | .KindTM => if nxtDir = L then head - 1 else head + 1
  | .KindPDA => if cur ≠ hashB then head + 1 else head
  | .KindTwoWayPDA => if cur ≠ hashB then head + 1 else head
  | .KindTransducer => if act = .ActScan ∧ cur ≠ hashB then head + 1 else head

/-- main.go lines 325-348: the unified accept/reject check on the successor,
after the head has moved. -/
def evalTerminal (kind : MachineKind) (nxt : State) (rt2 : Runtime) : StepStatus :=
  if nxt.accept then
    match kind with
    | .KindPDA => if rt2.stack.length = 0 then .Accept else .Reject
    | .KindTwoWayPDA =>
      if rt2.stack.length = 0 ∧ rt2.stack2.length = 0 then .Accept else .Reject
    | _ => .Accept
  else if nxt.reject then .Reject
  else .Continue

/-- main.go lines 202-213: resolving a print state's successor — the edge
keyed `'_'`, else the sole edge of a one-entry map. -/
def printNextId (s : State) : Option Nat :=
  match lookupSym s.next underscoreB with
  | some t => some t
  | none =>
    match s.next with
    | [p] => some p.2
    | _ => none

/-- main.go lines 202-231: the print branch (the output append happens
before the successor's flags are looked at; the head never moves). -/
def stepPrint (g : Graph) (s : State) (rt : Runtime) : StepOut :=
  match (printNextId s).bind (getState g) with
  | none => ⟨rt, none, .Reject, some .printMissingNext⟩
  | some nxt =>
    if s.printSym = 0 then ⟨rt, none, .Reject, some .printNoPrintSym⟩
    else if nxt.accept then
      ⟨{ rt with output := rt.output ++ [s.printSym] }, some nxt, .Accept, none⟩
    else if nxt.reject then
      ⟨{ rt with output := rt.output ++ [s.printSym] }, some nxt, .Reject, none⟩
    else ⟨{ rt with output := rt.output ++ [s.printSym] }, some nxt, .Continue, none⟩

/-- main.go lines 242-348: action, head movement, post-move bounds check and
terminal evaluation, once the successor is resolved.  The post-move check
reads the length of the (possibly written) tape, unchanged by any action. -/
def stepMain (s : State) (rt : Runtime) (cur : Nat) (nxt : State) : StepOut :=
  match applyAction s cur rt with
  | .inr e => ⟨rt, some nxt, .Reject, some e⟩
  | .inl rt1 =>
    if moveHead rt.kind s.action nxt.dir cur rt1.head < 0
        ∨ (rt1.tape.length : Int) ≤ moveHead rt.kind s.action nxt.dir cur rt1.head then
      ⟨{ rt1 with head := moveHead rt.kind s.action nxt.dir cur rt1.head },
        some nxt, .Reject, some .headMovedOut⟩
    else
      ⟨{ rt1 with head := moveHead rt.kind s.action nxt.dir cur rt1.head }, some nxt,
        evalTerminal rt.kind nxt { rt1 with head := moveHead rt.kind s.action nxt.dir cur rt1.head },
        none⟩

/-- main.go lines 193-240: transducer shortcut, print branch, transition
lookup (`nextOn`, whose miss is the `"invalid symbol"` error), and the dead
nil check (`missingTransitionNil`; a dangling target id plays the part of
Go's never-nil stored pointer). -/
def stepIn (g : Graph) (s : State) (rt : Runtime) (cur : Nat) : StepOut :=
  if rt.kind = .KindTransducer ∧ cur = hashB ∧ rt.head = (rt.tape.length : Int) - 1
      ∧ s.action ≠ .ActPrint then
    ⟨rt, some s, .Accept, none⟩
  else if s.action = .ActPrint then stepPrint g s rt
  else
    match lookupSym s.next cur with
    | none => ⟨rt, none, .Reject, some .invalidSymbol⟩
    | some tid =>
      match getState g tid with
      | none => ⟨rt, none, .Reject, some .missingTransitionNil⟩
      | some nxt => stepMain s rt cur nxt

/-- main.go lines 184-349: `(*State).Step`.  The arena `g` stands for the
pointer graph. -/
def Step (g : Graph) (s : State) (rt : Runtime) : StepOut :=
  if rt.head < 0 ∨ (rt.tape.length : Int) ≤ rt.head then
    ⟨rt, none, .Reject, some .headOutOfBounds⟩
  else stepIn g s rt (tapeRead rt.tape rt.head)

/-- How a run ends: Go `run`'s `(bool, error)` with the error kind kept. -/
inductive RunRes where
  | accepted
  | rejected
  | errored (e : ErrK)
deriving DecidableEq, Repr

/-- main.go lines 714-750: the `run` loop, with explicit fuel (the Go loop
is unbounded; `none` means the loop was still going after `fuel` steps).
A step's non-nil error returns it before the status is looked at; `Continue`
with no successor cannot arise from `Step`. -/
def run (g : Graph) : Nat → State → Runtime → Option (RunRes × Runtime)
  | 0, _, _ => none
  | fuel + 1, q, rt =>
    match Step g q rt with
    | ⟨rt', _, _, some e⟩ => some (.errored e, rt')
    | ⟨rt', _, .Accept, none⟩ => some (.accepted, rt')
    | ⟨rt', _, .Reject, none⟩ => some (.rejected, rt')
    | ⟨rt', some q2, .Continue, none⟩ => run g fuel q2 rt'
    | ⟨_, none, .Continue, none⟩ => none

/-! ## Snapshot machines used by the claims -/

/-- What one iteration of a snapshot run loop does: the possibly written
tape, the head after the iteration, the successor when the loop continues,
the returned boolean when it ends, and whether a (non-reject) error was
returned. -/
structure LoopOut where
  tape : List Nat
  head : Int
  next : Option State
  result : Option Bool
  err : Bool
deriving DecidableEq, Repr

/-- core.go lines 565-615, the loop body of `TWAMachine.Run`: bounds check;
missing transition returns `(false, nil)`; accept/reject of the successor
end the run *before* any movement; otherwise the head moves by the *current*
state's direction and only when the symbol read is not `'#'`.
(part_003's `runTrace` likewise moves by the current state's direction.) -/
def twaRunStep (g : Graph) (q : State) (tape : List Nat) (head : Int) : LoopOut :=
  if head < 0 ∨ (tape.length : Int) ≤ head then ⟨tape, head, none, some false, true⟩
  else
    match lookupSym q.next (tapeRead tape head) with
    | none => ⟨tape, head, none, some false, false⟩
    | some tid =>
      match getState g tid with
      | none => ⟨tape, head, none, some false, false⟩
      | some nxt =>
        if nxt.accept then ⟨tape, head, none, some true, false⟩
        else if nxt.reject then ⟨tape, head, none, some false, false⟩
        else
          ⟨tape,
            if tapeRead tape head ≠ hashB
            then (if q.dir = L then head - 1 else head + 1) else head,
            some nxt, none, false⟩

/-- The tape `TMMachine.Run` leaves after the write of part_000 lines 45-49:
written only when the current state is WriteTape *and* its write symbol is
not the zero byte. -/
def tmWrite (q : State) (tape : List Nat) (head : Int) : List Nat :=
  if q.action = .ActWriteTape ∧ q.writeSym ≠ 0
  then tape.set head.toNat q.writeSym else tape

/-- part_000 lines 27-77, the loop body of `TMMachine.Run`: bounds check;
missing transition returns `(false, nil)`; then the conditional tape write,
the head always moving by the successor's direction, and the successor's
flags ending or continuing the run. -/
def tmStep (g : Graph) (q : State) (tape : List Nat) (head : Int) : LoopOut :=
  if head < 0 ∨ (tape.length : Int) ≤ head then ⟨tape, head, none, some false, true⟩
  else
    match lookupSym q.next (tapeRead tape head) with
    | none => ⟨tape, head, none, some false, false⟩
    | some tid =>
      match getState g tid with
      | none => ⟨tape, head, none, some false, false⟩
      | some nxt =>
        if nxt.accept then
          ⟨tmWrite q tape head, if nxt.dir = L then head - 1 else head + 1, none, some true, false⟩
        else if nxt.reject then
          ⟨tmWrite q tape head, if nxt.dir = L then head - 1 else head + 1, none, some false, false⟩
        else
          ⟨tmWrite q tape head, if nxt.dir = L then head - 1 else head + 1, some nxt, none, false⟩

/-! ## Concrete rule files, graphs and runtimes used by the claim theorems -/

/-- A rule-file line as its character list. -/
def s2l (s : String) : List Char :=
  s.toList

/-- A fresh per-run context: main.go lines 858-862 start every run with the
wrapped tape, the head at index 1, and empty stacks and output. -/
def mkRt (tape : List Nat) (k : MachineKind) : Runtime :=
  ⟨tape, 1, [], [], [], k⟩

/-- Parse then build, chained exactly as `main` chains them (main.go lines
813-823); `none` when either stage fails. -/
def builtOf (ls : List (List Char)) : Graph × Option State :=
  match parseRules ls with
  | .pok lines maxID =>
    match buildGraph lines maxID with
    | .bok g st => (g, some st)
    | _ => ([], none)
  | _ => ([], none)

/-- The tape `#a#`. -/
def tapeA : List Nat :=
  [35, 97, 35]

/-- The tape `#aa#`. -/
def tapeAA : List Nat :=
  [35, 97, 97, 35]

/-- C1's rule file: state 1 only has an edge on `b`, so reading `a` has no
transition. -/
def c1Lines : List (List Char) :=
  [s2l "1] right (b,2)"]

def c1Graph : Graph :=
  (builtOf c1Lines).1

def c1Start : State :=
  (builtOf c1Lines).2.getD (defaultState 0)

def c1Rt : Runtime :=
  mkRt tapeA .KindTWA

/-- C2's rule file: push an `a`, then a print state whose successor is
accept-flagged — run under the one-stack PDA kind with one symbol pushed. -/
def c2Lines : List (List Char) :=
  [s2l "1] push (a,2)", s2l "2] print (x,3)", s2l "3] accept"]

def c2Graph : Graph :=
  (builtOf c2Lines).1

def c2Start : State :=
  (builtOf c2Lines).2.getD (defaultState 0)

def c2Rt : Runtime :=
  mkRt tapeA .KindPDA

/-- C2 witness: an ordinary scan state whose successor is accept-flagged. -/
def c2wS1 : State :=
  ⟨1, R, [(97, 2)], false, false, .ActScan, 0, 0, 0⟩

def c2wS2 : State :=
  ⟨2, R, [], true, false, .ActScan, 0, 0, 0⟩

def c2wGraph : Graph :=
  [none, some c2wS1, some c2wS2]

def c2wRt : Runtime :=
  mkRt tapeA .KindPDA

/-- C3 witness: a context whose head starts far out of bounds. -/
def c3wRt : Runtime :=
  ⟨tapeA, 5, [], [], [], .KindTWA⟩

/-- C4's rule file: a two-state cycle — state 1 on `a` goes to state 2
(direction left), state 2 on `#` goes back to state 1 (direction right) —
so on tape `#aa#` the head bounces between cells 1 and 0 forever. -/
def c4Lines : List (List Char) :=
  [s2l "1] right (a,2)", s2l "2] left (#,1)"]

def c4Graph : Graph :=
  (builtOf c4Lines).1

def c4s1 : State :=
  (builtOf c4Lines).2.getD (defaultState 0)

def c4s2 : State :=
  (getState c4Graph 2).getD (defaultState 0)

def c4RtA : Runtime :=
  mkRt tapeAA .KindTWA

def c4RtB : Runtime :=
  ⟨tapeAA, 0, [], [], [], .KindTWA⟩

/-- C5 counterexample: current state 1 has direction right, its successor on
`a` is state 2 with direction left and no terminal flag. -/
def c5s1 : State :=
  ⟨1, R, [(97, 2)], false, false, .ActScan, 0, 0, 0⟩

def c5s2 : State :=
  ⟨2, L, [], false, false, .ActScan, 0, 0, 0⟩

def c5Graph : Graph :=
  [none, some c5s1, some c5s2]

/-- C6 witness: a push-action state with an outgoing edge keyed `#`. -/
def c6wS : State :=
  ⟨1, R, [(35, 2)], false, false, .ActPush1, 0, 97, 0⟩

def c6wGraph : Graph :=
  [none, some c6wS]

/-- C7 counterexample: a state carrying the (parser-unreachable) WriteTape
action; its `writeSym` is the zero byte, the only value any builder ever
leaves there. -/
def c7s : State :=
  ⟨1, R, [(97, 2)], false, false, .ActWriteTape, 0, 0, 0⟩

def c7Graph : Graph :=
  [none, some c7s, some (defaultState 2)]

/-- The rule line the WriteTape keyword would need; `parseMode` splits it at
the hyphen into `write` + `tape` and fails. -/
def c7Lines : List (List Char) :=
  [s2l "1] write-tape (a,2)"]

/-- C8 counterexample: the same id declared accept on one line and reject on
another. -/
def c8Lines : List (List Char) :=
  [s2l "1] accept", s2l "1] reject"]

/-- C8 witness: a single accept record for id 1. -/
def c8wLines : List RawLine :=
  [⟨1, 0, .ActNone, [], true, false, 0⟩]

def c8wGraph : Graph :=
  [none, some ⟨1, R, [], true, false, .ActScan, 0, 0, 0⟩]

def c8wStart : State :=
  ⟨1, R, [], true, false, .ActScan, 0, 0, 0⟩

/-- C9/C10 witness inputs. -/
def c9wRt1 : Runtime :=
  mkRt tapeA .KindPDA

def c9wRt2 : Runtime :=
  ⟨tapeA, 1, [], [], [], .KindPDA⟩

def c10wLine : List Char :=
  s2l "7] Accept (a,2) left"

def c10wLineR : List Char :=
  s2l " 9 ] some reject junk (a,2)"

/-- The invariant every state of a built arena satisfies, relative to the
record list the builder consumed: its write symbol was never set (nothing in
`buildGraph` ever assigns `writeSym`), and each terminal flag can only come
from a record of the matching kind for that id. -/
def StInv (lines : List RawLine) (i : Nat) (s : State) : Prop :=
  s.writeSym = 0
  ∧ (s.accept = true → ∃ ln, ln ∈ lines ∧ ln.acc = true ∧ ln.id.toNat = i)
  ∧ (s.reject = true → ∃ ln, ln ∈ lines ∧ ln.rej = true ∧ ln.id.toNat = i)

/-! ## Theorems -/

/-! ### Arena lemmas -/

theorem getState_set (g : Graph) (j : Nat) (o : Option State) (i : Nat) :
    getState (g.set j o) i = if j = i ∧ j < g.length then o else getState g i := by
  induction g generalizing i j with
  | nil => simp [getState]
  | cons a g ih =>
    cases j with
    | zero =>
      cases i with
      | zero => simp [getState]
      | succ i => simp [getState, List.getD_cons_succ]
    | succ j =>
      cases i with
      | zero => simp [getState]
      | succ i =>
        simp only [List.set_cons_succ, getState, List.getD_cons_succ] at *
        rw [ih]
        simp [Nat.succ_lt_succ_iff]

theorem getState_replicate (n i : Nat) :
    getState (List.replicate n (none : Option State)) i = none := by
  induction n generalizing i with
  | zero => simp [getState]
  | succ n ih =>
    cases i with
    | zero => simp [getState, List.replicate_succ]
    | succ i => simp [getState, List.replicate_succ, List.getD_cons_succ]

theorem length_ensureState (g : Graph) (j : Nat) : (ensureState g j).length = g.length := by
  simp [ensureState]

theorem getState_ensureState (g : Graph) (j i : Nat) :
    getState (ensureState g j) i
      = if j = i ∧ j < g.length then some (defaultState j) else getState g i := by
  simp [ensureState, getState_set]

/-- After the first pass of `buildGraph`, every arena entry is `none` or a
default state (when the arena started that way). -/
theorem ensure_fold_default (ids : List Int) (g : Graph)
    (hg : ∀ i s, getState g i = some s → s = defaultState i) :
    ∀ i s, getState (ids.foldl (fun h x => ensureState h x.toNat) g) i = some s
      → s = defaultState i := by
  induction ids generalizing g with
  | nil => exact hg
  | cons x ids ih =>
    refine ih (ensureState g x.toNat) ?_
    intro i s h
    rw [getState_ensureState] at h
    split at h
    · cases h
      next hc => exact congrArg defaultState hc.1 ▸ rfl
    · exact hg i s h

/-! ### Builder invariants -/

theorem lineState_writeSym (ln : RawLine) (s0 : State) :
    (lineState ln s0).writeSym = s0.writeSym := by
  unfold lineState lineStackSym linePrintSym lineDirAct lineRej lineAcc
  split_ifs <;> rfl

theorem lineState_accept (ln : RawLine) (s0 : State) :
    (lineState ln s0).accept = (ln.acc || s0.accept) := by
  unfold lineState lineStackSym linePrintSym lineDirAct lineRej lineAcc
  split_ifs <;> simp_all

theorem lineState_reject (ln : RawLine) (s0 : State) :
    (lineState ln s0).reject = (ln.rej || s0.reject) := by
  unfold lineState lineStackSym linePrintSym lineDirAct lineRej lineAcc
  split_ifs <;> simp_all

/-- The pair fold only adds default states to the arena and only changes the
threaded state's edge map. -/
theorem pairFold_facts (prs : List (Nat × Int)) (g : Graph) (s : State) :
    (∀ i st, getState (prs.foldl pairStep (g, s)).1 i = some st →
       getState g i = some st ∨ st = defaultState i)
    ∧ (prs.foldl pairStep (g, s)).2.writeSym = s.writeSym
    ∧ (prs.foldl pairStep (g, s)).2.accept = s.accept
    ∧ (prs.foldl pairStep (g, s)).2.reject = s.reject := by
  induction prs generalizing g s with
  | nil => exact ⟨fun i st h => Or.inl h, rfl, rfl, rfl⟩
  | cons pr prs ih =>
    have hfold : (pr :: prs).foldl pairStep (g, s) = prs.foldl pairStep (pairStep (g, s) pr) := rfl
    rw [hfold]
    obtain ⟨ihg, ihw, iha, ihr⟩ := ih (pairStep (g, s) pr).1 (pairStep (g, s) pr).2
    refine ⟨?_, ihw, iha, ihr⟩
    intro i st h
    rcases ihg i st h with h' | h'
    · unfold pairStep at h'
      simp only at h'
      split at h'
      · rw [getState_ensureState] at h'
        split at h'
        · cases h'
          next hc => exact Or.inr (congrArg defaultState hc.1 ▸ rfl)
        · exact Or.inl h'
      · exact Or.inl h'
    · exact Or.inr h'

theorem applyLine_inv (all : List RawLine) (ln : RawLine) (hmem : ln ∈ all) (g : Graph)
    (hg : ∀ i s, getState g i = some s → StInv all i s) :
    ∀ i s, getState (applyLine g ln) i = some s → StInv all i s := by
  intro i s h
  unfold applyLine at h
  rcases hS : getState g ln.id.toNat with _ | s0 <;> rw [hS] at h
  · exact hg i s h
  · rw [getState_set] at h
    obtain ⟨hpg, hpw, hpa, hpr⟩ := pairFold_facts ln.pairs g (lineState ln s0)
    have hs0 := hg ln.id.toNat s0 hS
    split at h
    · next hc =>
      obtain ⟨hci, -⟩ := hc
      subst hci
      cases h
      refine ⟨?_, ?_, ?_⟩
      · rw [hpw, lineState_writeSym]
        exact hs0.1
      · intro ha
        rw [hpa, lineState_accept] at ha
        rcases (Bool.or_eq_true _ _).mp ha with ha' | ha'
        · exact ⟨ln, hmem, ha', rfl⟩
        · exact hs0.2.1 ha'
      · intro hr
        rw [hpr, lineState_reject] at hr
        rcases (Bool.or_eq_true _ _).mp hr with hr' | hr'
        · exact ⟨ln, hmem, hr', rfl⟩
        · exact hs0.2.2 hr'
    · rcases hpg i s h with h' | h'
      · exact hg i s h'
      · subst h'
        refine ⟨rfl, ?_, ?_⟩ <;> intro hx <;> simp [defaultState] at hx

theorem foldl_applyLine_inv (all : List RawLine) :
    ∀ ls : List RawLine, (∀ ln ∈ ls, ln ∈ all) →
    ∀ g : Graph, (∀ i s, getState g i = some s → StInv all i s) →
    ∀ i s, getState (ls.foldl applyLine g) i = some s → StInv all i s := by
  intro ls
  induction ls with
  | nil => intro _ g hg; exact hg
  | cons ln ls ih =>
    intro hsub g hg
    exact ih (fun x hx => hsub x (List.mem_cons_of_mem ln hx)) (applyLine g ln)
      (applyLine_inv all ln (hsub ln (List.mem_cons_self ln ls)) g hg)

theorem id_mem_allIds (lines : List RawLine) (ln : RawLine) (h : ln ∈ lines) :
    ln.id ∈ allIds lines := by
  unfold allIds
  refine List.mem_flatten.mpr ⟨lineIdList ln, List.mem_map_of_mem lineIdList h, ?_⟩
  unfold lineIdList
  exact List.mem_cons_self _ _

/-- Everything `buildGraph` guarantees about a successfully built arena: all
mentioned ids are in range, and every state satisfies `StInv`. -/
theorem buildGraph_states (lines : List RawLine) (maxID : Int) (g : Graph) (st : State)
    (hb : buildGraph lines maxID = .bok g st) :
    (∀ id ∈ allIds lines, 0 ≤ id ∧ id ≤ maxID)
    ∧ (∀ i s, getState g i = some s → StInv lines i s) := by
  unfold buildGraph at hb
  split at hb
  · cases hb
  · next hAny =>
    split at hb
    · next st' hG =>
      injection hb with hg' hst'
      subst hg'
      constructor
      · intro id hid
        simp only [List.any_eq_true, decide_eq_true_eq, not_exists, not_and, not_or] at hAny
        have h := hAny id hid
        omega
      · refine foldl_applyLine_inv lines lines (fun x hx => hx) _ ?_
        intro i s h
        have hdef := ensure_fold_default (allIds lines)
          (List.replicate (maxID + 1).toNat none) ?_ i s h
        · subst hdef
          refine ⟨rfl, ?_, ?_⟩ <;> intro hx <;> simp [defaultState] at hx
        · intro i' s' h'
          rw [getState_replicate] at h'
          cases h'
    · cases hb

/-- C1: in the unified interpreter a missing transition is NOT a plain
reject: `c1Lines` builds a graph whose start state has no edge on the symbol
read (`a`, byte 97), the step's action is not print, and `run` ends with the
`invalid symbol` error (main.go lines 177-182, 234-236: `nextOn` returns a
non-nil error, `run` lines 722-725 propagates it), not with the REJECT
result the claim requires. -/
theorem c1_missing_transition_is_error :
    (builtOf c1Lines).2 = some c1Start
    ∧ c1Start.action ≠ .ActPrint
    ∧ lookupSym c1Start.next (tapeRead c1Rt.tape c1Rt.head) = none
    ∧ run c1Graph 5 c1Start c1Rt = some (.errored .invalidSymbol, c1Rt) := by
  decide

/-- C2 counterexample: under the one-stack PDA kind, a print-action step
whose successor is accept-flagged ends the run with ACCEPT although stack1
is not empty (main.go lines 223-225 return `Accept` before the empty-stack
check of lines 326-331 is ever reached).  The graph is built from a rule
file and passes validation; the run pushed one symbol, then accepted from
the print state with stack `[97]`. -/
theorem c2_print_bypasses_stack_check :
    (builtOf c2Lines).2 = some c2Start
    ∧ validateNoWriteOnHash c2Graph .KindPDA = none
    ∧ (getState c2Graph 3).map State.accept = some true
    ∧ run c2Graph 5 c2Start c2Rt = some (.accepted, ⟨tapeA, 2, [97], [], [120], .KindPDA⟩) := by
  decide

theorem c4_cycle_step1 :
    Step c4Graph c4s1 c4RtA = ⟨c4RtB, some c4s2, .Continue, none⟩ := by
  decide

theorem c4_cycle_step2 :
    Step c4Graph c4s2 c4RtB = ⟨c4RtA, some c4s1, .Continue, none⟩ := by
  decide

theorem c4_cycle_aux :
    ∀ n, run c4Graph n c4s1 c4RtA = none ∧ run c4Graph n c4s2 c4RtB = none := by
  intro n
  induction n with
  | zero => exact ⟨rfl, rfl⟩
  | succ n ih =>
    refine ⟨?_, ?_⟩
    · show run c4Graph (n + 1) c4s1 c4RtA = none
      simp only [run, c4_cycle_step1]
      exact ih.2
    · show run c4Graph (n + 1) c4s2 c4RtB = none
      simp only [run, c4_cycle_step2]
      exact ih.1

/-- C4: main.go's `run` loop (lines 714-750) has no step cap at all: on the
two-state cycle built from `c4Lines` (a two-way automaton bouncing between
tape cells 1 and 0), the loop is still running after any finite number of
steps — it never reaches accept, reject or an error.  Only the early TWA
snapshot (part_003 lines 325-390, 441-442) has the ten-million-step cap the
claim describes. -/
theorem c4_no_step_cap_run_never_halts :
    (builtOf c4Lines).2 = some c4s1
    ∧ ∀ n, run c4Graph n c4s1 c4RtA = none :=
  ⟨by decide, fun n => (c4_cycle_aux n).1⟩

/-- C5 counterexample: in core.go's `TWAMachine.Run` (lines 594-609) the
head moves by the *current* state's direction, not the successor's: state 1
has direction right, its successor (state 2) has direction left, yet the
head moves from cell 1 to cell 2. -/
theorem c5_twa_moves_by_current_dir :
    c5s1.dir = R ∧ c5s2.dir = L
    ∧ (twaRunStep c5Graph c5s1 tapeA 1).next = some c5s2
    ∧ (twaRunStep c5Graph c5s1 tapeA 1).head = 2 := by
  decide

/-- C7 counterexample: the rule-file keyword `write-tape` never parses
(parseMode splits at the hyphen, core.go lines 151-176), and a WriteTape
step of the TM machine (part_000 lines 45-49) writes nothing because the
state's write symbol is the zero byte — the tape comes back unchanged, not
overwritten as the claim states. -/
theorem c7_write_tape_never_writes :
    parseRules c7Lines = .perr 1
    ∧ c7s.action = .ActWriteTape
    ∧ tmStep c7Graph c7s tapeA 1 = ⟨tapeA, 2, some (defaultState 2), none, false⟩ := by
  decide

/-- C8 counterexample: the parser accepts a rule file that declares id 1
both `accept` and `reject`, and the built start state carries both flags at
once. -/
theorem c8_accept_and_reject_both_set :
    ((builtOf c8Lines).2.map (fun s => (s.accept, s.reject))) = some (true, true) := by
  decide

/-- C8: the flag exclusivity that actually holds — as long as no id carries
both an accept record and a reject record, no built state has both flags. -/
theorem c8_flags_exclusive (lines : List RawLine) (maxID : Int) (g : Graph) (st : State)
    (i : Nat) (s : State)
    (hb : buildGraph lines maxID = .bok g st)
    (hno : ∀ l1 ∈ lines, ∀ l2 ∈ lines, l1.id = l2.id → ¬(l1.acc = true ∧ l2.rej = true))
    (hs : getState g i = some s) :
    ¬(s.accept = true ∧ s.reject = true) := by
  rintro ⟨ha, hr⟩
  obtain ⟨hids, hinv⟩ := buildGraph_states lines maxID g st hb
  obtain ⟨-, hA, hR⟩ := hinv i s hs
  obtain ⟨l1, hm1, hacc1, hid1⟩ := hA ha
  obtain ⟨l2, hm2, hrej2, hid2⟩ := hR hr
  have h1 := hids l1.id (id_mem_allIds lines l1 hm1)
  have h2 := hids l2.id (id_mem_allIds lines l2 hm2)
  have heq : l1.id = l2.id := by omega
  exact hno l1 hm1 l2 hm2 heq ⟨hacc1, hrej2⟩

/-- C8 witness: a record list with a lone accept line for id 1 builds a
start state that does not carry both flags. -/
theorem c8_flags_exclusive_witness :
    ¬(c8wStart.accept = true ∧ c8wStart.reject = true) :=
  c8_flags_exclusive c8wLines 1 c8wGraph c8wStart 1 c8wStart (by decide) (by decide) (by decide)

theorem getD_set_ne (l : List Nat) (j k v : Nat) (h : k ≠ j) :
    (l.set j v).getD k 0 = l.getD k 0 := by
  induction l generalizing j k with
  | nil => simp
  | cons a l ih =>
    cases j with
    | zero =>
      cases k with
      | zero => exact absurd rfl h
      | succ k => simp [List.getD_cons_succ]
    | succ j =>
      cases k with
      | zero => simp [List.getD_cons_zero]
      | succ k =>
        simp only [List.set_cons_succ, List.getD_cons_succ]
        exact ih j k (fun e => h (by omega))

theorem tmStep_no_write (g : Graph) (q : State) (tape : List Nat) (head : Int)
    (hw : q.writeSym = 0) :
    (tmStep g q tape head).tape = tape := by
  unfold tmStep tmWrite
  split
  · rfl
  · split
    · rfl
    · split
      · rfl
      · split_ifs <;> simp_all

theorem step_writeTape_tape (g : Graph) (s : State) (rt : Runtime)
    (ha : s.action = .ActWriteTape) :
    (Step g s rt).rt.tape = rt.tape
    ∨ (Step g s rt).rt.tape = rt.tape.set rt.head.toNat s.writeSym := by
  unfold Step
  split
  · exact Or.inl rfl
  · unfold stepIn
    split
    · exact Or.inl rfl
    · rw [if_neg (by rw [ha]; intro hx; cases hx)]
      split
      · exact Or.inl rfl
      · split
        · exact Or.inl rfl
        · unfold stepMain
          have hA : applyAction s (tapeRead rt.tape rt.head) rt
              = .inl { rt with tape := rt.tape.set rt.head.toNat s.writeSym } := by
            unfold applyAction
            rw [ha]
          simp only [hA]
          split_ifs <;> exact Or.inr rfl

/-- C7: what WriteTape really does.  (1) No parser or builder ever sets a
write symbol: every state of a built graph has `writeSym = 0`.  (2) The TM
machine's step (part_000 lines 45-49) therefore never writes: with
`writeSym = 0` the tape comes back unchanged.  (3) main.go's unified `Step`
(lines 247-248) either leaves the tape alone or overwrites exactly the head
cell with `writeSym` (the zero byte for every built state), and (4) never
changes any other tape cell. -/
theorem c7_write_tape_semantics :
    (∀ (lines : List RawLine) (maxID : Int) (g : Graph) (st : State),
        buildGraph lines maxID = .bok g st →
        ∀ i s, getState g i = some s → s.writeSym = 0)
    ∧ (∀ (g : Graph) (q : State) (tape : List Nat) (head : Int),
        q.writeSym = 0 → (tmStep g q tape head).tape = tape)
    ∧ (∀ (g : Graph) (s : State) (rt : Runtime), s.action = .ActWriteTape →
        ((Step g s rt).rt.tape = rt.tape
          ∨ (Step g s rt).rt.tape = rt.tape.set rt.head.toNat s.writeSym)
        ∧ ∀ j, j ≠ rt.head.toNat → (Step g s rt).rt.tape.getD j 0 = rt.tape.getD j 0) := by
  refine ⟨?_, ?_, ?_⟩
  · intro lines maxID g st hb i s hs
    exact ((buildGraph_states lines maxID g st hb).2 i s hs).1
  · exact tmStep_no_write
  · intro g s rt ha
    refine ⟨step_writeTape_tape g s rt ha, ?_⟩
    intro j hj
    rcases step_writeTape_tape g s rt ha with h | h
    · rw [h]
    · rw [h, getD_set_ne rt.tape rt.head.toNat j s.writeSym hj]

/-! ### Validator lemmas (C6) -/

theorem findOffender_isSome (g : Graph) :
    (findOffender g).isSome = true ↔
      ∃ s, some s ∈ g ∧ (s.action = .ActPush1 ∨ s.action = .ActPush2)
        ∧ (lookupSym s.next hashB).isSome = true := by
  induction g with
  | nil => simp [findOffender]
  | cons o rest ih =>
    cases o with
    | none =>
      show (findOffender rest).isSome = true ↔ _
      rw [ih]
      constructor
      · rintro ⟨s, hm, hx⟩
        exact ⟨s, List.mem_cons_of_mem _ hm, hx⟩
      · rintro ⟨s, hm, hx⟩
        rcases List.mem_cons.mp hm with hh | hm'
        · exact absurd hh (by simp)
        · exact ⟨s, hm', hx⟩
    | some s0 =>
      by_cases hc : (s0.action = .ActPush1 ∨ s0.action = .ActPush2)
          ∧ (lookupSym s0.next hashB).isSome = true
      · simp only [findOffender, if_pos hc]
        exact ⟨fun _ => ⟨s0, List.mem_cons_self _ _, hc.1, hc.2⟩, fun _ => rfl⟩
      · simp only [findOffender, if_neg hc]
        rw [ih]
        constructor
        · rintro ⟨s, hm, hx⟩
          exact ⟨s, List.mem_cons_of_mem _ hm, hx⟩
        · rintro ⟨s, hm, hx1, hx2⟩
          rcases List.mem_cons.mp hm with hh | hm'
          · injection hh with hh'
            subst hh'
            exact absurd ⟨hx1, hx2⟩ hc
          · exact ⟨s, hm', hx1, hx2⟩

theorem findOffender_names (g : Graph) (i : Nat) (h : findOffender g = some i) :
    ∃ s, some s ∈ g ∧ s.id = i ∧ (s.action = .ActPush1 ∨ s.action = .ActPush2)
      ∧ (lookupSym s.next hashB).isSome = true := by
  induction g with
  | nil => cases h
  | cons o rest ih =>
    cases o with
    | none =>
      obtain ⟨s, hm, hx⟩ := ih h
      exact ⟨s, List.mem_cons_of_mem _ hm, hx⟩
    | some s0 =>
      by_cases hc : (s0.action = .ActPush1 ∨ s0.action = .ActPush2)
          ∧ (lookupSym s0.next hashB).isSome = true
      · simp only [findOffender, if_pos hc] at h
        injection h with h'
        exact ⟨s0, List.mem_cons_self _ _, h', hc.1, hc.2⟩
      · simp only [findOffender, if_neg hc] at h
        obtain ⟨s, hm, hx⟩ := ih h
        exact ⟨s, List.mem_cons_of_mem _ hm, hx⟩

/-- C6: `validateNoWriteOnHash` succeeds on every graph for the non-pushdown
kinds, and for the two pushdown kinds it fails exactly when some state has a
push action together with an outgoing edge keyed on the boundary marker —
and the returned error names such a state's id. -/
theorem c6_validate_push_on_hash (g : Graph) (k : MachineKind) :
    ((k ≠ .KindPDA ∧ k ≠ .KindTwoWayPDA) → validateNoWriteOnHash g k = none)
    ∧ ((k = .KindPDA ∨ k = .KindTwoWayPDA) →
        ((validateNoWriteOnHash g k).isSome = true ↔
          ∃ s, some s ∈ g ∧ (s.action = .ActPush1 ∨ s.action = .ActPush2)
            ∧ (lookupSym s.next hashB).isSome = true))
    ∧ (∀ i, validateNoWriteOnHash g k = some i →
        ∃ s, some s ∈ g ∧ s.id = i ∧ (s.action = .ActPush1 ∨ s.action = .ActPush2)
          ∧ (lookupSym s.next hashB).isSome = true) := by
  refine ⟨?_, ?_, ?_⟩
  · intro hk
    unfold validateNoWriteOnHash
    rw [if_pos hk]
  · intro hk
    unfold validateNoWriteOnHash
    rw [if_neg (by rcases hk with h | h <;> simp [h])]
    exact findOffender_isSome g
  · intro i hv
    unfold validateNoWriteOnHash at hv
    split at hv
    · cases hv
    · exact findOffender_names g i hv

/-- C6 witness: a push state with a `#` edge fails PDA validation naming its
id; the same graph passes under the TM kind. -/
theorem c6_validate_push_on_hash_witness :
    (validateNoWriteOnHash c6wGraph .KindPDA).isSome = true
    ∧ validateNoWriteOnHash c6wGraph .KindTM = none :=
  ⟨((c6_validate_push_on_hash c6wGraph .KindPDA).2.1 (Or.inl rfl)).mpr
      ⟨c6wS, by decide, by decide, by decide⟩,
   (c6_validate_push_on_hash c6wGraph .KindTM).1 (by decide)⟩

/-! ### Step lemmas (C2, C3, C5) -/

/-- No action changes the head, the tape's length or the kind on its
successful path. -/
theorem applyAction_inl (s : State) (cur : Nat) (rt rt' : Runtime)
    (h : applyAction s cur rt = .inl rt') :
    rt'.head = rt.head ∧ rt'.tape.length = rt.tape.length ∧ rt'.kind = rt.kind := by
  unfold applyAction at h
  cases hA : s.action <;> rw [hA] at h
  case ActNone =>
    injection h with h'
    subst h'
    exact ⟨rfl, rfl, rfl⟩
  case ActScan =>
    injection h with h'
    subst h'
    exact ⟨rfl, rfl, rfl⟩
  case ActPrint =>
    injection h with h'
    subst h'
    exact ⟨rfl, rfl, rfl⟩
  case ActWriteTape =>
    injection h with h'
    subst h'
    exact ⟨rfl, by simp, rfl⟩
  case ActPush1 =>
    injection h with h'
    subst h'
    split_ifs <;> exact ⟨rfl, rfl, rfl⟩
  case ActPush2 =>
    injection h with h'
    subst h'
    split_ifs <;> exact ⟨rfl, rfl, rfl⟩
  case ActPop1 =>
    split_ifs at h
    all_goals injection h with h'
    all_goals subst h'
    all_goals exact ⟨rfl, rfl, rfl⟩
  case ActPop2 =>
    split_ifs at h
    all_goals injection h with h'
    all_goals subst h'
    all_goals exact ⟨rfl, rfl, rfl⟩

/-- The print branch never moves the head or touches the tape. -/
theorem stepPrint_rt (g : Graph) (s : State) (rt : Runtime) :
    (stepPrint g s rt).rt.head = rt.head ∧ (stepPrint g s rt).rt.tape = rt.tape := by
  unfold stepPrint
  split
  · exact ⟨rfl, rfl⟩
  · split_ifs <;> exact ⟨rfl, rfl⟩

/-- An error-free `stepMain` leaves the head inside the tape. -/
theorem stepMain_err_none (s : State) (rt : Runtime) (cur : Nat) (nxt : State)
    (h : (stepMain s rt cur nxt).err = none) :
    0 ≤ (stepMain s rt cur nxt).rt.head
    ∧ (stepMain s rt cur nxt).rt.head < ((stepMain s rt cur nxt).rt.tape.length : Int) := by
  unfold stepMain at h ⊢
  rcases hA : applyAction s cur rt with rt1 | e
  all_goals rw [hA] at h
  · dsimp only at h ⊢
    by_cases hb : moveHead rt.kind s.action nxt.dir cur rt1.head < 0
        ∨ (rt1.tape.length : Int) ≤ moveHead rt.kind s.action nxt.dir cur rt1.head
    · rw [if_pos hb] at h
      simp at h
    · rw [if_neg hb] at h ⊢
      dsimp only
      push_neg at hb
      exact ⟨by omega, by omega⟩
  · simp at h

/-- An error-free `stepIn` starting inside the tape ends inside the tape. -/
theorem stepIn_err_none (g : Graph) (s : State) (rt : Runtime) (cur : Nat)
    (hin : 0 ≤ rt.head ∧ rt.head < (rt.tape.length : Int))
    (h : (stepIn g s rt cur).err = none) :
    0 ≤ (stepIn g s rt cur).rt.head
    ∧ (stepIn g s rt cur).rt.head < ((stepIn g s rt cur).rt.tape.length : Int) := by
  unfold stepIn at h ⊢
  by_cases h1 : rt.kind = .KindTransducer ∧ cur = hashB
      ∧ rt.head = (rt.tape.length : Int) - 1 ∧ s.action ≠ .ActPrint
  · rw [if_pos h1]
    exact hin
  · rw [if_neg h1] at h ⊢
    by_cases h2 : s.action = .ActPrint
    · rw [if_pos h2] at h ⊢
      obtain ⟨hh, ht⟩ := stepPrint_rt g s rt
      rw [hh, ht]
      exact hin
    · rw [if_neg h2] at h ⊢
      rcases hL : lookupSym s.next cur with _ | tid
      all_goals rw [hL] at h
      all_goals dsimp only at h ⊢
      · simp at h
      · rcases hG : getState g tid with _ | nxt
        all_goals rw [hG] at h
        all_goals dsimp only at h ⊢
        · simp at h
        · exact stepMain_err_none s rt cur nxt h

/-- C3: head-boundary discipline of the unified stepper.  An error-free step
reads and writes only with the head inside `[0, length-1]` and leaves it
there; a step attempted with the head outside that range produces the
out-of-bounds error, which `run` surfaces as an error result — never as a
plain REJECT; and in general every step error becomes an `errored` run
result. -/
theorem c3_head_bounds (g : Graph) (s : State) (rt : Runtime) :
    ((Step g s rt).err = none →
        (0 ≤ rt.head ∧ rt.head < (rt.tape.length : Int))
        ∧ (0 ≤ (Step g s rt).rt.head
            ∧ (Step g s rt).rt.head < ((Step g s rt).rt.tape.length : Int)))
    ∧ (¬(0 ≤ rt.head ∧ rt.head < (rt.tape.length : Int)) →
        (Step g s rt).err = some .headOutOfBounds
        ∧ ∀ n, run g (n + 1) s rt = some (.errored .headOutOfBounds, rt))
    ∧ (∀ e, (Step g s rt).err = some e →
        ∀ n, run g (n + 1) s rt = some (.errored e, (Step g s rt).rt)) := by
  have herr : ∀ e, (Step g s rt).err = some e →
      ∀ n, run g (n + 1) s rt = some (.errored e, (Step g s rt).rt) := by
    intro e he n
    rcases hS : Step g s rt with ⟨rt', nx, st, er⟩
    rw [hS] at he
    dsimp only at he
    subst he
    simp [run, hS]
  refine ⟨?_, ?_, herr⟩
  · intro he
    by_cases hb : rt.head < 0 ∨ (rt.tape.length : Int) ≤ rt.head
    · exfalso
      unfold Step at he
      rw [if_pos hb] at he
      simp at he
    · have hin : 0 ≤ rt.head ∧ rt.head < (rt.tape.length : Int) := by
        constructor <;> omega
      refine ⟨hin, ?_⟩
      unfold Step at he ⊢
      rw [if_neg hb] at he ⊢
      exact stepIn_err_none g s rt _ hin he
  · intro hb
    have hb' : rt.head < 0 ∨ (rt.tape.length : Int) ≤ rt.head := by omega
    have hS : Step g s rt = ⟨rt, none, .Reject, some .headOutOfBounds⟩ := by
      unfold Step
      rw [if_pos hb']
    refine ⟨by rw [hS], ?_⟩
    intro n
    have h := herr .headOutOfBounds (by rw [hS]) n
    rw [hS] at h
    exact h

/-- C3 witness: a context whose head starts at 5 on a 3-cell tape errors out
with `headOutOfBounds` and `run` reports the error, not a reject. -/
theorem c3_head_bounds_witness :
    (Step c1Graph c1Start c3wRt).err = some .headOutOfBounds
    ∧ run c1Graph 1 c1Start c3wRt = some (.errored .headOutOfBounds, c3wRt) := by
  have h := (c3_head_bounds c1Graph c1Start c3wRt).2.1 (by decide)
  exact ⟨h.1, h.2 0⟩

/-- A continuing `stepMain` hands back the resolved successor and the head
moved by `moveHead` from the original head (no action changes the head). -/
theorem stepMain_continue (s : State) (rt : Runtime) (cur : Nat) (nxt : State)
    (hc : (stepMain s rt cur nxt).status = .Continue) :
    (stepMain s rt cur nxt).nxt = some nxt
    ∧ (stepMain s rt cur nxt).rt.head = moveHead rt.kind s.action nxt.dir cur rt.head := by
  unfold stepMain at hc ⊢
  rcases hA : applyAction s cur rt with rt1 | e
  all_goals rw [hA] at hc
  all_goals dsimp only at hc ⊢
  · by_cases hb : moveHead rt.kind s.action nxt.dir cur rt1.head < 0
        ∨ (rt1.tape.length : Int) ≤ moveHead rt.kind s.action nxt.dir cur rt1.head
    · rw [if_pos hb] at hc
      simp at hc
    · rw [if_neg hb]
      have hh := (applyAction_inl s cur rt rt1 hA).1
      exact ⟨rfl, by dsimp only; rw [hh]⟩
  · simp at hc

/-- core.go's TWA loop body moves the head, when it continues, by the
current state's direction — and only off the boundary marker. -/
theorem twaRunStep_head (g : Graph) (q : State) (tape : List Nat) (head : Int)
    (h : (twaRunStep g q tape head).next.isSome = true) :
    (twaRunStep g q tape head).head
      = (if tapeRead tape head = hashB then head
         else (if q.dir = L then head - 1 else head + 1)) := by
  unfold twaRunStep at h ⊢
  by_cases h1 : head < 0 ∨ (tape.length : Int) ≤ head
  · rw [if_pos h1] at h
    simp at h
  · rw [if_neg h1] at h ⊢
    rcases hL : lookupSym q.next (tapeRead tape head) with _ | tid
    all_goals rw [hL] at h
    all_goals dsimp only at h ⊢
    · simp at h
    · rcases hG : getState g tid with _ | nxt
      all_goals rw [hG] at h
      all_goals dsimp only at h ⊢
      · simp at h
      · by_cases ha : nxt.accept = true
        · rw [if_pos ha] at h
          simp at h
        · rw [if_neg ha] at h ⊢
          by_cases hr : nxt.reject = true
          · rw [if_pos hr] at h
            simp at h
          · rw [if_neg hr] at h ⊢
            dsimp only
            by_cases hcur : tapeRead tape head = hashB
            · simp [hcur]
            · simp [hcur]

/-- C5: head movement.  In main.go's unified `Step`, a continuing TWA or TM
step (with a non-print action) moves the head exactly one cell, by the
*successor* state's direction, whatever symbol was read; but in core.go's
`TWAMachine.Run` (and part_003's `runTrace`) the head moves by the *current*
state's direction, and in core.go not at all on the boundary marker. -/
theorem c5_head_movement (g : Graph) (s : State) (rt : Runtime) :
    (∀ nxt, (rt.kind = .KindTWA ∨ rt.kind = .KindTM) → s.action ≠ .ActPrint →
      (Step g s rt).status = .Continue → (Step g s rt).nxt = some nxt →
      (Step g s rt).rt.head = (if nxt.dir = L then rt.head - 1 else rt.head + 1))
    ∧ (∀ (q : State) (tape : List Nat) (head : Int),
        (twaRunStep g q tape head).next.isSome = true →
        (twaRunStep g q tape head).head
          = (if tapeRead tape head = hashB then head
             else (if q.dir = L then head - 1 else head + 1))) := by
  constructor
  · intro nxt hk hp hc hn
    unfold Step at hc hn ⊢
    by_cases hb : rt.head < 0 ∨ (rt.tape.length : Int) ≤ rt.head
    · rw [if_pos hb] at hc
      cases hc
    · rw [if_neg hb] at hc hn ⊢
      unfold stepIn at hc hn ⊢
      have h1 : ¬(rt.kind = .KindTransducer ∧ tapeRead rt.tape rt.head = hashB
          ∧ rt.head = (rt.tape.length : Int) - 1 ∧ s.action ≠ .ActPrint) := by
        rintro ⟨hx, -⟩
        rcases hk with hkk | hkk <;> rw [hkk] at hx <;> cases hx
      rw [if_neg h1] at hc hn ⊢
      rw [if_neg hp] at hc hn ⊢
      rcases hL : lookupSym s.next (tapeRead rt.tape rt.head) with _ | tid
      all_goals rw [hL] at hc hn
      all_goals dsimp only at hc hn ⊢
      · cases hc
      · rcases hG : getState g tid with _ | nxt'
        all_goals rw [hG] at hc hn
        all_goals dsimp only at hc hn ⊢
        · cases hc
        · obtain ⟨hnx, hhead⟩ := stepMain_continue s rt _ nxt' hc
          rw [hnx] at hn
          injection hn with hn'
          subst hn'
          rw [hhead]
          rcases hk with hkk | hkk <;> simp [moveHead, hkk]
  · exact twaRunStep_head g

/-- C5 witness: a TWA-kind continuing step of the unified interpreter whose
successor's direction is left moves the head from 1 to 0. -/
theorem c5_head_movement_witness :
    (Step c4Graph c4s1 c4RtA).rt.head = 0 := by
  have h := (c5_head_movement c4Graph c4s1 c4RtA).1 c4s2 (Or.inl rfl) (by decide)
    (by decide) (by decide)
  rw [h]
  decide

/-- C2: the acceptance predicate that actually holds, restricted to
non-print, non-error steps: entering an accept-flagged successor under the
one-stack PDA kind accepts exactly when stack1 is empty after the step's
stack effect, and under the two-stack kind exactly when both stacks are
empty; otherwise such a step rejects. -/
theorem c2_empty_stack_acceptance (g : Graph) (s : State) (rt : Runtime) (nxt : State)
    (hk : rt.kind = .KindPDA ∨ rt.kind = .KindTwoWayPDA)
    (hp : s.action ≠ .ActPrint)
    (he : (Step g s rt).err = none)
    (hn : (Step g s rt).nxt = some nxt)
    (ha : nxt.accept = true) :
    ((Step g s rt).status = .Accept ∨ (Step g s rt).status = .Reject)
    ∧ ((Step g s rt).status = .Accept ↔
        ((rt.kind = .KindPDA ∧ (Step g s rt).rt.stack = [])
         ∨ (rt.kind = .KindTwoWayPDA ∧ (Step g s rt).rt.stack = []
             ∧ (Step g s rt).rt.stack2 = []))) := by
  unfold Step at he hn ⊢
  by_cases hb : rt.head < 0 ∨ (rt.tape.length : Int) ≤ rt.head
  · rw [if_pos hb] at he
    simp at he
  · rw [if_neg hb] at he hn ⊢
    unfold stepIn at he hn ⊢
    have h1 : ¬(rt.kind = .KindTransducer ∧ tapeRead rt.tape rt.head = hashB
        ∧ rt.head = (rt.tape.length : Int) - 1 ∧ s.action ≠ .ActPrint) := by
      rintro ⟨hx, -⟩
      rcases hk with hkk | hkk <;> rw [hkk] at hx <;> cases hx
    rw [if_neg h1] at he hn ⊢
    rw [if_neg hp] at he hn ⊢
    rcases hL : lookupSym s.next (tapeRead rt.tape rt.head) with _ | tid
    all_goals rw [hL] at he hn
    all_goals dsimp only at he hn ⊢
    · simp at he
    · rcases hG : getState g tid with _ | nxt'
      all_goals rw [hG] at he hn
      all_goals dsimp only at he hn ⊢
      · simp at he
      · unfold stepMain at he hn ⊢
        rcases hA : applyAction s (tapeRead rt.tape rt.head) rt with rt1 | e
        all_goals rw [hA] at he hn
        all_goals dsimp only at he hn ⊢
        · by_cases hmv : moveHead rt.kind s.action nxt'.dir (tapeRead rt.tape rt.head) rt1.head < 0
              ∨ (rt1.tape.length : Int) ≤ moveHead rt.kind s.action nxt'.dir (tapeRead rt.tape rt.head) rt1.head
          · rw [if_pos hmv] at he
            simp at he
          · rw [if_neg hmv] at he hn ⊢
            dsimp only at hn ⊢
            injection hn with hn'
            subst hn'
            unfold evalTerminal
            rw [if_pos ha]
            rcases hk with hkk | hkk <;> rw [hkk] <;> dsimp only
            · refine ⟨by split_ifs <;> simp, ?_⟩
              by_cases hst : rt1.stack.length = 0
              · rw [if_pos hst]
                simp [List.length_eq_zero.mp hst]
              · rw [if_neg hst]
                simp only [List.length_eq_zero] at hst
                simp [hst]
            · refine ⟨by split_ifs <;> simp, ?_⟩
              by_cases hst : rt1.stack.length = 0 ∧ rt1.stack2.length = 0
              · rw [if_pos hst]
                simp [List.length_eq_zero.mp hst.1, List.length_eq_zero.mp hst.2]
              · rw [if_neg hst]
                simp only [not_and_or, List.length_eq_zero] at hst
                constructor
                · intro hx
                  cases hx
                · rintro (⟨hx, -⟩ | ⟨-, hs1, hs2⟩)
                  · cases hx
                  · rcases hst with hst | hst <;> exact absurd (by assumption) hst
        · simp at he

/-- C2 witness: a non-print PDA step into an accept-flagged successor with an
empty stack accepts. -/
theorem c2_empty_stack_acceptance_witness :
    (Step c2wGraph c2wS1 c2wRt).status = .Accept :=
  ((c2_empty_stack_acceptance c2wGraph c2wS1 c2wRt c2wS2 (Or.inl rfl) (by decide) (by decide)
      (by decide) (by decide)).2).mpr (Or.inl ⟨rfl, by decide⟩)

/-- C9: determinism.  `Step` and `run` are pure functions of the graph, the
state and the runtime context, so two runs of the same graph and kind whose
fresh contexts (head 1, empty stacks, empty output — what `main` builds for
every run) carry equal tape contents return equal results: same
accept/reject/error outcome, same final tape, same output sequence.  There
is no other input: no randomness and no iteration-order dependence reaches
the outcome (the one map iteration in `Step`'s print fallback only fires on
a one-entry map). -/
theorem c9_determinism (g : Graph) (s : State) (n : Nat) (rt1 rt2 : Runtime)
    (ht : rt1.tape = rt2.tape) (hh1 : rt1.head = 1) (hh2 : rt2.head = 1)
    (hs1 : rt1.stack = []) (hs2 : rt2.stack = [])
    (ht1 : rt1.stack2 = []) (ht2 : rt2.stack2 = [])
    (ho1 : rt1.output = []) (ho2 : rt2.output = [])
    (hk : rt1.kind = rt2.kind) :
    run g n s rt1 = run g n s rt2 := by
  obtain ⟨t1, h1, a1, b1, o1, k1⟩ := rt1
  obtain ⟨t2, h2, a2, b2, o2, k2⟩ := rt2
  simp_all

/-- C9 witness: two separately written but equal fresh contexts produce the
same run result. -/
theorem c9_determinism_witness :
    run c2wGraph 3 c2wS1 c9wRt1 = run c2wGraph 3 c2wS1 c9wRt2 :=
  c9_determinism c2wGraph c2wS1 3 c9wRt1 c9wRt2 rfl rfl rfl rfl rfl rfl rfl rfl rfl rfl

/-- C10: the parser's terminal-line rule.  Any trimmed, non-blank,
non-comment line whose first `]` sits at a positive index and whose
lowercased text contains `accept` anywhere is turned into exactly one
accept record for the leading id — mode tokens and `(symbol,target)` pairs
on the line are discarded; when `accept` does not occur but `reject` does,
the same happens with a reject record. -/
theorem c10_terminal_line (l : List Char) (i : Nat) (v : Int)
    (hne : trimStr l ≠ [])
    (hsl : isPre tokSlashes (trimStr l) = false)
    (hhs : isPre tokHashSp (trimStr l) = false)
    (hi : indexOfChar (trimStr l) ']' = some i)
    (hpos : 0 < i)
    (hid : atoiInt (trimStr ((trimStr l).take i)) = some v) :
    (containsStr (toLowerStr (trimStr l)) tokAccept = true →
      processLine l = .emit ⟨v, 0, .ActNone, [], true, false, 0⟩)
    ∧ (containsStr (toLowerStr (trimStr l)) tokAccept = false →
      containsStr (toLowerStr (trimStr l)) tokReject = true →
      processLine l = .emit ⟨v, 0, .ActNone, [], false, true, 0⟩) := by
  constructor
  · intro hacc
    unfold processLine
    rw [if_neg (by simp [hne, hsl, hhs])]
    rw [hi]
    dsimp only
    rw [if_pos ⟨hpos, hacc⟩, hid]
  · intro hacc hrej
    unfold processLine
    rw [if_neg (by simp [hne, hsl, hhs])]
    rw [hi]
    dsimp only
    rw [if_neg (by simp [hacc]), if_pos ⟨hpos, hrej⟩, hid]

/-- C10 witness: `7] Accept (a,2) left` becomes the bare accept record for
id 7 (its pair and mode token are dropped), and a junk line containing
`reject` becomes the bare reject record for id 9. -/
theorem c10_terminal_line_witness :
    processLine c10wLine = .emit ⟨7, 0, .ActNone, [], true, false, 0⟩
    ∧ processLine c10wLineR = .emit ⟨9, 0, .ActNone, [], false, true, 0⟩ :=
  ⟨(c10_terminal_line c10wLine 1 7 (by decide) (by decide) (by decide) (by decide)
      (by decide) (by decide)).1 (by decide),
   (c10_terminal_line c10wLineR 2 9 (by decide) (by decide) (by decide) (by decide)
      (by decide) (by decide)).2 (by decide) (by decide)⟩

end TuringPoint
